import Mathlib

/-!
Shallow embedding of the core of src/app.js (secteur-analyzer) and proofs
about its specification claims.

Modelling conventions:
* JS numbers are rationals (`ℚ`); `Math.round` is Mathlib's `round`
  (both round halves up: `round x = ⌊x + 1/2⌋`).
* A raw JSON field that may be absent — or whose `parseFloat`/`parseInt`
  yields NaN — is an `Option`; the JS `||` fallback, which treats `0`, `NaN`
  and the empty string as falsy, is modelled explicitly.
* The one place where the code can produce a NaN result (the unguarded
  division in `normalizeTransactionCquest`) is modelled by an `Option ℤ`
  price-per-square-metre field, `none` standing for NaN.
* Platform capabilities (HTTP transport, the regex engine, `Date` parsing,
  Unicode case mapping and NFD normalisation) are passed in as explicit
  parameters or encoded as small outcome types; everything written in
  src/app.js itself is translated directly.
-/

/-- JS `parseFloat(x) || y`: an absent or unparseable field (NaN) and the
number 0 are falsy and fall through to `y`. -/
def jsOrNum (a : Option ℚ) (b : ℚ) : ℚ :=
  match a with
  | some x => if x = 0 then b else x
  | none => b

/-- JS `s1 || s2` on strings: `undefined` and the empty string are falsy. -/
def jsOrStr (a : Option String) (b : String) : String :=
  match a with
  | some s => if s = "" then b else s
  | none => b

/-- Raw source transaction record, as the duck-typed JS object: every field
any of the three DVF mapping functions reads. `none` models an absent field
(or one whose numeric parse yields NaN). -/
structure RawRecord where
  date_mutation : String := ""
  type_local : Option String := none
  adresse_nom_voie : Option String := none
  adresse : Option String := none
  surface_reelle_bati : Option ℚ := none
  surface_terrain : Option ℚ := none
  valeur_fonciere : Option ℚ := none
  nombre_pieces_principales : Option ℤ := none
  code_postal : Option String := none
  id_mutation : Option String := none
deriving Repr, DecidableEq

/-- Canonical transaction produced by the normalizers. `prixM2 = none` models
the JS value NaN, which only `normalizeTransactionCquest` can produce (its
division is not guarded on `valeur_fonciere`). -/
structure Transaction where
  date : String := ""
  type : String := "Autre"
  adresse : String := ""
  surface : ℚ := 0
  prix : ℚ := 0
  prixM2 : Option ℤ := some 0
  pieces : ℤ := 0
  codePostal : Option String := none
  idMutation : Option String := none
deriving Repr, DecidableEq

/-- Character-list test used to model JS `String.startsWith`. -/
def listStarts : List Char → List Char → Bool
  | _, [] => true
  | [], _ :: _ => false
  | c :: cs, p :: ps => c == p && listStarts cs ps

/-- Character-list test used to model JS `String.includes`. -/
def listHas : List Char → List Char → Bool
  | [], pat => listStarts [] pat
  | c :: cs, pat => listStarts (c :: cs) pat || listHas cs pat

/-- JS `a.includes(b)` on strings. -/
def strHas (s pat : String) : Bool := listHas s.data pat.data

/-- JS `String.toLowerCase`, on the ASCII range — the only range on which the
category labels of the DVF sources need the case map (their accented letters
are already lower case). -/
def jsToLower (s : String) : String :=
  String.mk (s.data.map (fun c =>
    if 'A' ≤ c ∧ c ≤ 'Z' then Char.ofNat (c.toNat + 32) else c))

/-- normalizeType from src/app.js: a falsy label (absent or empty) gives
"Autre"; otherwise lower-case and match substrings in the fixed priority
order, first match wins. -/
def normalizeType (type? : Option String) : String :=
  match type? with
  | none => "Autre"
  | some ty =>
    if ty = "" then "Autre"
    else
      let t := jsToLower ty
      if strHas t "maison" then "Maison"
      else if strHas t "appartement" then "Appartement"
      else if strHas t "terrain" || strHas t "dépendance" then "Terrain"
      else if strHas t "local" || strHas t "commerce" then "Commerce"
      else "Autre"

/-- normalizeTransactionEtalab from src/app.js. -/
def normalizeTransactionEtalab (t : RawRecord) : Transaction :=
  let surface := jsOrNum t.surface_reelle_bati (jsOrNum t.surface_terrain 0)
  let prix := jsOrNum t.valeur_fonciere 0
  { date := t.date_mutation
    type := normalizeType t.type_local
    adresse := jsOrStr t.adresse_nom_voie "Non renseignée"
    surface := surface
    prix := prix
    prixM2 := some (if 0 < surface then round (prix / surface) else 0)
    pieces := t.nombre_pieces_principales.getD 0
    codePostal := t.code_postal
    idMutation := t.id_mutation }

/-- normalizeTransactionCquest from src/app.js. The `prixM2` ternary tests
the raw `surface_reelle_bati` field (not the fallback-resolved surface), and
its division reads the raw `valeur_fonciere` and `surface_reelle_bati`
directly; `none` models the NaN produced when `valeur_fonciere` does not
parse while the guard passed. -/
def normalizeTransactionCquest (t : RawRecord) : Transaction :=
  { date := t.date_mutation
    type := normalizeType t.type_local
    adresse := jsOrStr t.adresse_nom_voie (jsOrStr t.adresse "Non renseignée")
    surface := jsOrNum t.surface_reelle_bati (jsOrNum t.surface_terrain 0)
    prix := jsOrNum t.valeur_fonciere 0
    prixM2 :=
      match t.surface_reelle_bati with
      | some s =>
        if 0 < s then
          match t.valeur_fonciere with
          | some v => some (round (v / s))
          | none => none
        else some 0
      | none => some 0
    pieces := t.nombre_pieces_principales.getD 0 }

/-- normalizeTransactionODS from src/app.js. -/
def normalizeTransactionODS (t : RawRecord) : Transaction :=
  let surface := jsOrNum t.surface_reelle_bati (jsOrNum t.surface_terrain 0)
  let prix := jsOrNum t.valeur_fonciere 0
  { date := t.date_mutation
    type := normalizeType t.type_local
    adresse := jsOrStr t.adresse_nom_voie "Non renseignée"
    surface := surface
    prix := prix
    prixM2 := some (if 0 < surface then round (prix / surface) else 0)
    pieces := t.nombre_pieces_principales.getD 0 }

/-- Parser tag of an entry of API_CONFIG.dvfApis. -/
inductive DvfParserTag
  | etalab
  | cquest
  | opendatasoft
deriving Repr, DecidableEq

/-- One entry of API_CONFIG.dvfApis. -/
structure DvfApi where
  name : String
  needsCors : Bool
  parserTag : DvfParserTag

/-- API_CONFIG.dvfApis: the fixed priority list of the three DVF adapters. -/
def dvfApis : List DvfApi :=
  [ { name := "etalab", needsCors := false, parserTag := DvfParserTag.etalab },
    { name := "cquest", needsCors := true, parserTag := DvfParserTag.cquest },
    { name := "opendatasoft", needsCors := false,
      parserTag := DvfParserTag.opendatasoft } ]

/-- JSON envelope of a DVF response: the three optional array fields the
three parser branches look for (`data.mutations`, `data.resultats`,
`data.results`). A field that is absent or not an array is `none`. -/
structure DvfJson where
  mutations : Option (List RawRecord) := none
  resultats : Option (List RawRecord) := none
  results : Option (List RawRecord) := none

/-- Network environment of one getDVFTransactions run: for the adapter at
each position, either no usable response — a thrown fetch error, a missing
response or a non-ok status, all handled identically (`none`) — or the parsed
JSON body of an ok response. -/
def DvfEnv : Type := Nat → Option DvfJson

/-- Body of one loop iteration of getDVFTransactions: parse the envelope
according to the api's parser tag and map the matching normalizer; a missing
envelope or a missing array field leaves `transactions` empty. -/
def runAdapter (api : DvfApi) (data? : Option DvfJson) : List Transaction :=
  match data? with
  | none => []
  | some data =>
    match api.parserTag with
    | DvfParserTag.etalab =>
      match data.mutations with
      | some ms => ms.map normalizeTransactionEtalab
      | none => []
    | DvfParserTag.cquest =>
      match data.resultats with
      | some rs => rs.map normalizeTransactionCquest
      | none => []
    | DvfParserTag.opendatasoft =>
      match data.results with
      | some rs => rs.map normalizeTransactionODS
      | none => []

/-- The transactions the adapter at position `i` of dvfApis would yield in
environment `env`. -/
def adapterYield (env : DvfEnv) (i : Nat) : List Transaction :=
  match dvfApis[i]? with
  | some api => runAdapter api (env i)
  | none => []

/-- The `for (const api of API_CONFIG.dvfApis)` loop of getDVFTransactions.
The second component records the positions whose iteration was entered (the
adapters actually invoked). -/
def getDVFLoop (env : DvfEnv) : List DvfApi → Nat → List Transaction × List Nat
  | [], _ => ([], [])
  | api :: rest, i =>
    let ts := runAdapter api (env i)
    if 0 < ts.length then (ts, [i])
    else
      let r := getDVFLoop env rest (i + 1)
      (r.1, i :: r.2)

/-- getDVFTransactions from src/app.js: try the adapters in the fixed order,
return the first non-empty mapped result, else the empty list (never a thrown
error). -/
def getDVFTransactions (env : DvfEnv) : List Transaction × List Nat :=
  getDVFLoop env dvfApis 0

/-- median from src/app.js: sort ascending (JS `sort((a, b) => a - b)`), take
the middle element for odd length, `Math.round` of the mean of the two middle
elements for even length. The JS numeric sort is embedded as insertion sort,
which produces the same ascending result. The code only calls this with a
nonempty list; the empty case (NaN in JS) gets the `getD` default. -/
def median (arr : List ℤ) : ℤ :=
  let sorted := arr.insertionSort (fun a b => a ≤ b)
  let mid := sorted.length / 2
  if sorted.length % 2 = 1 then sorted.getD mid 0
  else round (((sorted.getD (mid - 1) 0 + sorted.getD mid 0 : ℤ) : ℚ) / 2)

/-- One per-category row of `priceStats`. -/
structure PriceStat where
  count : ℕ
  min : ℤ
  max : ℤ
  avg : ℤ
  median : ℤ
deriving Repr, DecidableEq

/-- The key sequence of a JS object populated by insertion (`byType`,
`byYear`): first-occurrence order, no duplicates. -/
def objKeys {α : Type} [DecidableEq α] (l : List α) : List α :=
  l.foldl (fun ks k => if k ∈ ks then ks else ks ++ [k]) []

/-- The validity filter of calculateStats: `t.prix > 0 && t.surface > 0`. -/
def isValid (t : Transaction) : Bool :=
  decide (0 < t.prix) && decide (0 < t.surface)

/-- `trans.map(t => t.prixM2).filter(p => p > 0)`: the pricePerSqm values a
category's stats are computed over. A NaN (`none`) or non-positive value is
dropped (`NaN > 0` is false in JS). -/
def positivePrices (trans : List Transaction) : List ℤ :=
  (trans.map (fun t => t.prixM2)).filterMap (fun p? =>
    match p? with
    | some p => if 0 < p then some p else none
    | none => none)

/-- The stats object built for one category from its (nonempty) positive
price list `p :: ps` and its valid-transaction count. `Math.min(...prices)`
and `Math.max(...prices)` are folds over all elements. -/
def mkPriceStat (count : ℕ) (p : ℤ) (ps : List ℤ) : PriceStat :=
  { count := count
    min := ps.foldl Min.min p
    max := ps.foldl Max.max p
    avg := round (((p :: ps).sum : ℚ) / ((p :: ps).length : ℚ))
    median := median (p :: ps) }

/-- The per-category stats of calculateStats: group the valid transactions by
type (JS object, first-occurrence key order) and keep a category only when it
has at least one positive pricePerSqm value (`if (prices.length > 0)`). -/
def calcPriceStats (valid : List Transaction) : List (String × PriceStat) :=
  (objKeys (valid.map (fun t => t.type))).filterMap (fun ty =>
    let trans := valid.filter (fun t => t.type == ty)
    match positivePrices trans with
    | [] => none
    | p :: ps => some (ty, mkPriceStat trans.length p ps))

/-- One row of `yearlyStats`. `avgPrice = none` models the NaN a NaN
`prixM2` would poison the reduce-sum with. -/
structure YearlyStat where
  year : ℤ
  count : ℕ
  avgPrice : Option ℤ
deriving Repr, DecidableEq

/-- JS `trans.reduce((acc, t) => acc + t.prixM2, 0)`: one NaN (`none`)
poisons the whole sum. -/
def jsSumPrixM2 (l : List Transaction) : Option ℤ :=
  l.foldl (fun acc t =>
    match acc, t.prixM2 with
    | some a, some p => some (a + p)
    | _, _ => none) (some 0)

/-- The yearly grouping of calculateStats: group valid transactions by the
calendar year of their date, one row per year present, sorted ascending by
year (`sort((a, b) => a.year - b.year)`). -/
def calcYearlyStats (getYear : String → ℤ) (valid : List Transaction) :
    List YearlyStat :=
  List.insertionSort (fun a b => a.year ≤ b.year)
    ((objKeys (valid.map (fun t => getYear t.date))).map (fun y =>
      let trans := valid.filter (fun t => getYear t.date == y)
      { year := y
        count := trans.length
        avgPrice := (jsSumPrixM2 trans).map (fun s =>
          round ((s : ℚ) / (trans.length : ℚ))) }))

/-- The six bucket counters of calculateHousingDistribution, in the fixed
bucket order. -/
structure SurfCounts where
  c0 : ℕ := 0
  c1 : ℕ := 0
  c2 : ℕ := 0
  c3 : ℕ := 0
  c4 : ℕ := 0
  c5 : ℕ := 0
deriving Repr, DecidableEq

/-- One forEach step of calculateHousingDistribution: the if/else-if chain
increments exactly one bucket, picked from the transaction's surface. -/
def surfacesStep (acc : SurfCounts) (t : Transaction) : SurfCounts :=
  if t.surface < 30 then { acc with c0 := acc.c0 + 1 }
  else if t.surface < 60 then { acc with c1 := acc.c1 + 1 }
  else if t.surface < 80 then { acc with c2 := acc.c2 + 1 }
  else if t.surface < 100 then { acc with c3 := acc.c3 + 1 }
  else if t.surface < 120 then { acc with c4 := acc.c4 + 1 }
  else { acc with c5 := acc.c5 + 1 }

/-- One row of the surface histogram. -/
structure Bucket where
  label : String
  count : ℕ
  percent : ℤ
deriving Repr, DecidableEq

/-- calculateHousingDistribution from src/app.js:
`total = transactions.length || 1`, `percent = Math.round(count/total*100)`. -/
def calculateHousingDistribution (transactions : List Transaction) :
    List Bucket :=
  let s := transactions.foldl surfacesStep {}
  let total : ℕ := if transactions.length = 0 then 1 else transactions.length
  let pct : ℕ → ℤ := fun c => round (((c : ℚ) / (total : ℚ)) * 100)
  [ { label := "Moins de 30m²", count := s.c0, percent := pct s.c0 },
    { label := "30 à 60m²", count := s.c1, percent := pct s.c1 },
    { label := "60 à 80m²", count := s.c2, percent := pct s.c2 },
    { label := "80 à 100m²", count := s.c3, percent := pct s.c3 },
    { label := "100 à 120m²", count := s.c4, percent := pct s.c4 },
    { label := "Plus de 120m²", count := s.c5, percent := pct s.c5 } ]

/-- Municipality record (the fields calculateStats reads). -/
structure Commune where
  nom : String := ""
  code : String := ""
  codesPostaux : List String := []
  population : ℤ := 0
  surface : ℚ := 0
deriving Repr, DecidableEq

/-- The StatsBundle returned by calculateStats. -/
structure Stats where
  totalTransactions : ℕ
  validTransactions : ℕ
  priceStats : List (String × PriceStat)
  yearlyStats : List YearlyStat
  housingDist : List Bucket
  population : ℤ
  surface : ℚ
  density : ℤ
deriving Repr, DecidableEq

/-- calculateStats from src/app.js. The platform date parser
`new Date(t.date).getFullYear()` is passed in as `getYear`. -/
def calculateStats (getYear : String → ℤ) (transactions : List Transaction)
    (commune : Commune) : Stats :=
  let valid := transactions.filter isValid
  { totalTransactions := transactions.length
    validTransactions := valid.length
    priceStats := calcPriceStats valid
    yearlyStats := calcYearlyStats getYear valid
    housingDist := calculateHousingDistribution valid
    population := commune.population
    surface := commune.surface
    density :=
      if 0 < commune.surface then
        round ((commune.population : ℚ) / (commune.surface / 100))
      else 0 }

/-- Outcome of one call to the geographic service, as the code observes it:
either a response with `response.ok` false (any non-success status or, at the
caller's level, an aborted transport) or an ok response with a parsed body. -/
inductive GeoResponse (α : Type)
  | notOk
  | ok (body : α)

/-- getCommuneByCode from src/app.js: a non-ok response throws the error
message "Commune non trouvée"; an ok response returns its body. -/
def getCommuneByCode (r : GeoResponse Commune) : Except String Commune :=
  match r with
  | GeoResponse.notOk => Except.error "Commune non trouvée"
  | GeoResponse.ok c => Except.ok c

/-- getCommuneByName from src/app.js: a non-ok response throws the error
message "Erreur recherche"; an ok response returns `communes[0] || null`. -/
def getCommuneByName (r : GeoResponse (List Commune)) :
    Except String (Option Commune) :=
  match r with
  | GeoResponse.notOk => Except.error "Erreur recherche"
  | GeoResponse.ok cs => Except.ok cs.head?

/-- The by-name resolution step of startAnalysis (src/app.js lines 222-232):
a thrown error propagates with its own message, while a `null` commune
becomes the thrown error "Commune non trouvée". This is the caller-observable
outcome of resolving by name. -/
def resolveByName (r : GeoResponse (List Commune)) : Except String Commune :=
  match getCommuneByName r with
  | Except.error e => Except.error e
  | Except.ok none => Except.error "Commune non trouvée"
  | Except.ok (some c) => Except.ok c

/-- Outcomes of the ordered regex alternation chains of parseLInternauteHTML
on one page text: for each fact, `none` when no pattern of its chain matched,
otherwise the numeric value parsed from the first matching pattern. The regex
engine itself is a platform capability; these fields are its results. -/
structure LIMatches where
  nbLog : Option ℤ := none
  rp : Option ℤ := none
  rs : Option ℤ := none
  lv : Option ℤ := none
  maisonsPct : Option ℚ := none
  apptsPct : Option ℚ := none
  pieceHits : List (String × ℚ) := []
  propPct : Option ℚ := none
  locPct : Option ℚ := none
  construction : Option (String × ℚ) := none

/-- The data object parseLInternauteHTML returns. An `Option` field models a
JS field that can still be `null`; `repartitionPieces` is an object-valued
field, `none` standing for `null` and `some` for an object (possibly empty). -/
structure LIData where
  nbLogements : Option ℤ
  residencesPrincipales : Option ℤ
  residencesSecondaires : Option ℤ
  logementsVacants : Option ℤ
  typesLogements : Option (Option ℚ × Option ℚ)
  repartitionPieces : Option (List (String × ℚ))
  proprietaires : Option ℚ
  locataires : Option ℚ
  anneeConstruction : Option (String × ℚ)
deriving Repr, DecidableEq

/-- JS object assignment `obj[key] = value`: update in place when the key
exists, else append. -/
def jsObjSet (acc : List (String × ℚ)) (k : String) (v : ℚ) :
    List (String × ℚ) :=
  if (acc.lookup k).isSome then
    acc.map (fun p => if p.1 = k then (k, v) else p)
  else acc ++ [(k, v)]

/-- The forEach over piecePatterns: record a hit unless the key already holds
a truthy (nonzero) value — the JS guard is `!data.repartitionPieces[key]`. -/
def buildPieces (hits : List (String × ℚ)) : List (String × ℚ) :=
  hits.foldl (fun acc kv =>
    match acc.lookup kv.1 with
    | some v => if v = 0 then jsObjSet acc kv.1 kv.2 else acc
    | none => acc ++ [(kv.1, kv.2)]) []

/-- parseLInternauteHTML from src/app.js, as a function of the regex outcomes
on the page text. `repartitionPieces` is unconditionally assigned the freshly
built (possibly empty) object, so it is never `null` in the returned data. -/
def parseLInternauteHTML (m : LIMatches) : LIData :=
  { nbLogements := m.nbLog
    residencesPrincipales := m.rp
    residencesSecondaires := m.rs
    logementsVacants := m.lv
    typesLogements :=
      if m.maisonsPct.isSome || m.apptsPct.isSome then
        some (m.maisonsPct, m.apptsPct)
      else none
    repartitionPieces := some (buildPieces m.pieceHits)
    proprietaires := m.propPct
    locataires := m.locPct
    anneeConstruction := m.construction }

/-- Outcome of one relay attempt for the L'Internaute page: no usable
response (thrown fetch error or non-ok status), or an ok response whose text
passes or fails the keyword check
(`html.includes('linternaute') || … 'logement' || … 'immobilier'`) and whose
regex outcomes are `m`. -/
inductive LIOutcome
  | failed
  | page (keywordOk : Bool) (m : LIMatches)

/-- JS truthiness of the guard of getLInternauteData,
`data.nbLogements || data.repartitionPieces || data.typesLogements`: a
numeric field is truthy iff present and nonzero; an object-valued field is
truthy whenever it is not `null`, even when the object is empty. -/
def liGuard (d : LIData) : Bool :=
  (match d.nbLogements with
   | some v => decide (v ≠ 0)
   | none => false)
  || d.repartitionPieces.isSome
  || d.typesLogements.isSome

/-- getLInternauteData from src/app.js: try each relay in order; on an ok,
keyword-passing page, parse it and return the data when the guard holds;
after the last relay throw "Données L'Internaute non disponibles". -/
def getLInternauteData : List LIOutcome → Except String LIData
  | [] => Except.error "Données L'Internaute non disponibles"
  | LIOutcome.failed :: rest => getLInternauteData rest
  | LIOutcome.page false _ :: rest => getLInternauteData rest
  | LIOutcome.page true m :: rest =>
    let d := parseLInternauteHTML m
    if liGuard d then Except.ok d else getLInternauteData rest

/-- The character class `[a-z0-9]` of the slug regex in normalizeForUrl. -/
def urlSafe (c : Char) : Bool :=
  ('a' ≤ c && c ≤ 'z') || ('0' ≤ c && c ≤ '9')

/-- JS `replace(/[^a-z0-9]+/g, '-')`: each maximal run of characters outside
`[a-z0-9]` becomes a single hyphen. -/
def dashRuns : List Char → List Char
  | [] => []
  | c :: cs =>
    if urlSafe c then c :: dashRuns cs
    else '-' :: dashRuns (cs.dropWhile (fun d => !urlSafe d))
termination_by l => l.length
decreasing_by
  all_goals simp only [List.length_cons]
  · omega
  · have h := (List.dropWhile_sublist (l := cs) (fun d => !urlSafe d)).length_le
    omega

/-- JS `replace(/^-+|-+$/g, '')`: drop the leading and the trailing run of
hyphens. -/
def trimDashes (l : List Char) : List Char :=
  ((l.dropWhile (fun c => c == '-')).reverse.dropWhile (fun c => c == '-')).reverse

/-- normalizeForUrl from src/app.js. Its leading
`.toLowerCase().normalize('NFD').replace(/[̀-ͯ]/g, '')` chain is a
platform Unicode transformation, passed in as `pre`; the real chain is the
identity on strings already made only of `[a-z0-9-]`, which is all the
idempotence theorem assumes of it. -/
def normalizeForUrl (pre : List Char → List Char) (s : List Char) :
    List Char :=
  trimDashes (dashRuns (pre s))

/-- Concrete cquest raw record whose surface falls back to surface_terrain:
the derived price-per-square-metre is 0, not round(prix/surface). -/
def rawCquestCex : RawRecord :=
  { date_mutation := "2022-03-01", type_local := some "Maison",
    surface_terrain := some 50, valeur_fonciere := some 100000 }

/-- Concrete Etalab raw record with a positive built surface. -/
def rawEtalabW : RawRecord :=
  { date_mutation := "2022-03-01", type_local := some "Maison",
    surface_reelle_bati := some 50, valeur_fonciere := some 100000 }

/-- The regex outcome of a page from which no fact at all was extracted. -/
def liNoFacts : LIMatches := {}

/-- Environment in which only the first (Etalab) adapter has data. -/
def dvfEnvW : DvfEnv := fun i =>
  if i = 0 then some { mutations := some [{}] } else none

/-- Total of the six bucket counters. -/
def sumCounts (s : SurfCounts) : ℕ :=
  s.c0 + s.c1 + s.c2 + s.c3 + s.c4 + s.c5

/-- Six valid transactions, one per surface bucket. -/
def histCexList : List Transaction :=
  [ { surface := 10, prix := 1000 }, { surface := 40, prix := 1000 },
    { surface := 70, prix := 1000 }, { surface := 90, prix := 1000 },
    { surface := 110, prix := 1000 }, { surface := 130, prix := 1000 } ]

/-- A valid transaction (prix 1, surface 10) whose derived pricePerSqm is 0
(round(1/10) = 0), as the Etalab normalizer would produce. -/
def txValidZero : Transaction :=
  { date := "2022-01-01", type := "Maison", adresse := "x", surface := 10,
    prix := 1, prixM2 := some 0 }

/-- A valid transaction with a positive derived pricePerSqm. -/
def txGood : Transaction :=
  { date := "2022-05-01", type := "Appartement", adresse := "y",
    surface := 50, prix := 500000, prixM2 := some 10000 }

/-- The stats entry of one concrete single-transaction category. -/
def statW7 : PriceStat := mkPriceStat 1 10000 []

/-- Environment in which no adapter has any data. -/
def dvfEnvNone : DvfEnv := fun _ => none

/-- Claim C1 (amended): the invariant `pricePerSqm = round(price/area) when
area > 0, else 0` holds for the Etalab and OpenDataSoft normalizers; for the
cquest normalizer the derived field is computed from the raw
surface_reelle_bati field alone — round(valeur_fonciere/surface_reelle_bati)
when that raw field is positive (and the price parses), and 0 whenever it is
absent or non-positive, even if the record's areaSqm fell back to a positive
surface_terrain. -/
theorem claim_C1_theorem (t : RawRecord) :
    (0 < (normalizeTransactionEtalab t).surface →
      (normalizeTransactionEtalab t).prixM2 =
        some (round ((normalizeTransactionEtalab t).prix /
          (normalizeTransactionEtalab t).surface)))
    ∧ ((normalizeTransactionEtalab t).surface = 0 →
        (normalizeTransactionEtalab t).prixM2 = some 0)
    ∧ (0 < (normalizeTransactionODS t).surface →
      (normalizeTransactionODS t).prixM2 =
        some (round ((normalizeTransactionODS t).prix /
          (normalizeTransactionODS t).surface)))
    ∧ ((normalizeTransactionODS t).surface = 0 →
        (normalizeTransactionODS t).prixM2 = some 0)
    ∧ (∀ s v, t.surface_reelle_bati = some s → 0 < s →
        t.valeur_fonciere = some v →
        (normalizeTransactionCquest t).prixM2 = some (round (v / s)))
    ∧ ((∀ s, t.surface_reelle_bati = some s → ¬ 0 < s) →
        (normalizeTransactionCquest t).prixM2 = some 0) := by
  refine ⟨?_, ?_, ?_, ?_, ?_, ?_⟩
  · intro h
    simp only [normalizeTransactionEtalab] at h ⊢
    rw [if_pos h]
  · intro h
    simp only [normalizeTransactionEtalab] at h ⊢
    rw [h]
    norm_num
  · intro h
    simp only [normalizeTransactionODS] at h ⊢
    rw [if_pos h]
  · intro h
    simp only [normalizeTransactionODS] at h ⊢
    rw [h]
    norm_num
  · intro s v hs h0 hv
    simp only [normalizeTransactionCquest, hs, hv]
    rw [if_pos h0]
  · intro h
    simp only [normalizeTransactionCquest]
    cases hs : t.surface_reelle_bati with
    | none => rfl
    | some s =>
      have h0 := h s hs
      simp only [hs]
      rw [if_neg h0]

/-- Claim C1 is false as stated: on a cquest record whose built surface is
absent, the produced record has areaSqm 50 (from surface_terrain) and price
100000, yet its derived price-per-square-metre is 0, not
round(100000/50) = 2000. -/
theorem claim_C1_counterexample :
    (normalizeTransactionCquest rawCquestCex).surface = 50
    ∧ (normalizeTransactionCquest rawCquestCex).prix = 100000
    ∧ (normalizeTransactionCquest rawCquestCex).prixM2 = some 0
    ∧ round ((normalizeTransactionCquest rawCquestCex).prix /
        (normalizeTransactionCquest rawCquestCex).surface) = 2000
    ∧ (normalizeTransactionCquest rawCquestCex).prixM2 ≠
        some (round ((normalizeTransactionCquest rawCquestCex).prix /
          (normalizeTransactionCquest rawCquestCex).surface)) := by
  have hs : (normalizeTransactionCquest rawCquestCex).surface = 50 := by
    norm_num [normalizeTransactionCquest, rawCquestCex, jsOrNum]
  have hp : (normalizeTransactionCquest rawCquestCex).prix = 100000 := by
    norm_num [normalizeTransactionCquest, rawCquestCex, jsOrNum]
  have hm : (normalizeTransactionCquest rawCquestCex).prixM2 = some 0 := by
    simp [normalizeTransactionCquest, rawCquestCex]
  have hr : round ((normalizeTransactionCquest rawCquestCex).prix /
      (normalizeTransactionCquest rawCquestCex).surface) = 2000 := by
    rw [hs, hp]
    rw [show (100000 : ℚ) / 50 = ((2000 : ℤ) : ℚ) by norm_num]
    exact round_intCast 2000
  refine ⟨hs, hp, hm, hr, ?_⟩
  rw [hm, hr]
  simp

/-- Witness for claim C1's theorem at a concrete Etalab record. -/
theorem claim_C1_witness :
    0 < (normalizeTransactionEtalab rawEtalabW).surface ∧
    (normalizeTransactionEtalab rawEtalabW).prixM2 =
      some (round ((normalizeTransactionEtalab rawEtalabW).prix /
        (normalizeTransactionEtalab rawEtalabW).surface)) := by
  have h : 0 < (normalizeTransactionEtalab rawEtalabW).surface := by
    norm_num [normalizeTransactionEtalab, rawEtalabW, jsOrNum]
  exact ⟨h, (claim_C1_theorem rawEtalabW).1 h⟩

/-- Claim C8 is false as stated: resolving by name surfaces a non-success
response from the geographic service as the thrown error "Erreur recherche",
while an empty result set surfaces as the thrown error "Commune non trouvée"
— two caller-observable, distinct outcomes. -/
theorem claim_C8_counterexample :
    resolveByName GeoResponse.notOk = Except.error "Erreur recherche"
    ∧ resolveByName (GeoResponse.ok []) = Except.error "Commune non trouvée"
    ∧ resolveByName GeoResponse.notOk ≠ resolveByName (GeoResponse.ok []) := by
  refine ⟨rfl, rfl, ?_⟩
  intro h
  have := Except.error.inj h
  simp at this

/-- Claim C8 (amended): resolution by code surfaces any non-success response
as the NotFound error "Commune non trouvée"; resolution by name surfaces an
empty result set as NotFound ("Commune non trouvée") but surfaces a
non-success response as the distinct error "Erreur recherche", so for the
by-name path "no such place" and "service down" are caller-distinguishable. -/
theorem claim_C8_theorem :
    getCommuneByCode GeoResponse.notOk = Except.error "Commune non trouvée"
    ∧ resolveByName GeoResponse.notOk = Except.error "Erreur recherche"
    ∧ resolveByName (GeoResponse.ok []) = Except.error "Commune non trouvée"
    ∧ (∀ c cs, resolveByName (GeoResponse.ok (c :: cs)) = Except.ok c)
    ∧ (Except.error "Erreur recherche" : Except String Commune) ≠
        Except.error "Commune non trouvée" := by
  refine ⟨rfl, rfl, rfl, fun c cs => rfl, ?_⟩
  intro h
  have := Except.error.inj h
  simp at this

/-- Claim C9 names a real code bug: parseLInternauteHTML unconditionally
assigns `repartitionPieces = {}` before the piece-pattern loop, and an empty
object is truthy in JS, so the guard
`data.nbLogements || data.repartitionPieces || data.typesLogements` of
getLInternauteData is always true once a relay returns acceptable HTML. On a
page with zero extracted facts the fetch therefore resolves with an all-null
profile (its repartitionPieces the empty object) instead of raising the
"unavailable" signal the specification describes. -/
theorem claim_C9_theorem :
    getLInternauteData [LIOutcome.page true liNoFacts] =
      Except.ok (parseLInternauteHTML liNoFacts)
    ∧ (parseLInternauteHTML liNoFacts).nbLogements = none
    ∧ (parseLInternauteHTML liNoFacts).residencesPrincipales = none
    ∧ (parseLInternauteHTML liNoFacts).residencesSecondaires = none
    ∧ (parseLInternauteHTML liNoFacts).logementsVacants = none
    ∧ (parseLInternauteHTML liNoFacts).typesLogements = none
    ∧ (parseLInternauteHTML liNoFacts).repartitionPieces = some []
    ∧ (parseLInternauteHTML liNoFacts).proprietaires = none
    ∧ (parseLInternauteHTML liNoFacts).locataires = none
    ∧ (parseLInternauteHTML liNoFacts).anneeConstruction = none
    ∧ liGuard (parseLInternauteHTML liNoFacts) = true := by
  refine ⟨?_, rfl, rfl, rfl, rfl, rfl, rfl, rfl, rfl, rfl, rfl⟩
  simp [getLInternauteData, liGuard, parseLInternauteHTML, liNoFacts,
    buildPieces]

/-- Full unfolding of the adapter loop over the concrete three-entry
dvfApis list. -/
theorem getDVF_unfold (env : DvfEnv) :
    getDVFTransactions env =
      if 0 < (adapterYield env 0).length then (adapterYield env 0, [0])
      else if 0 < (adapterYield env 1).length then (adapterYield env 1, [0, 1])
      else if 0 < (adapterYield env 2).length then
        (adapterYield env 2, [0, 1, 2])
      else ([], [0, 1, 2]) := by
  simp only [getDVFTransactions, dvfApis, getDVFLoop, adapterYield,
    List.getElem?_cons_zero, List.getElem?_cons_succ]
  split_ifs <;> rfl

/-- Claim C2: getDVFTransactions tries the adapters in the fixed dvfApis
priority order; whenever the adapter at position i yields at least one
transaction, no later position j is ever invoked, and if furthermore every
earlier position yields nothing, the returned transactions are exactly
position i's yield. -/
theorem claim_C2_theorem (env : DvfEnv) (i j : Nat) (hj : j < 3)
    (hij : i < j) (hy : adapterYield env i ≠ []) :
    j ∉ (getDVFTransactions env).2
    ∧ ((∀ k, k < i → adapterYield env k = []) →
        (getDVFTransactions env).1 = adapterYield env i) := by
  rw [getDVF_unfold]
  have hi2 : i < 2 := by omega
  have hylen : 0 < (adapterYield env i).length := List.length_pos.mpr hy
  interval_cases i
  · rw [if_pos hylen]
    refine ⟨?_, fun _ => rfl⟩
    show j ∉ [0]
    simp only [List.mem_singleton]
    omega
  · have hj2 : j = 2 := by omega
    subst hj2
    by_cases h0 : 0 < (adapterYield env 0).length
    · rw [if_pos h0]
      refine ⟨?_, ?_⟩
      · show (2 : Nat) ∉ [0]
        decide
      · intro hk
        have := hk 0 (by norm_num)
        rw [this] at h0
        simp at h0
    · rw [if_neg h0, if_pos hylen]
      refine ⟨?_, fun _ => rfl⟩
      show (2 : Nat) ∉ [0, 1]
      decide

/-- Witness for claim C2's theorem: with data at position 0, position 1 is
not invoked and position 0's yield is returned. -/
theorem claim_C2_witness :
    adapterYield dvfEnvW 0 ≠ []
    ∧ 1 ∉ (getDVFTransactions dvfEnvW).2
    ∧ ((∀ k, k < 0 → adapterYield dvfEnvW k = []) →
        (getDVFTransactions dvfEnvW).1 = adapterYield dvfEnvW 0) := by
  have hy : adapterYield dvfEnvW 0 ≠ [] := by
    simp [adapterYield, dvfApis, dvfEnvW, runAdapter]
  have h := claim_C2_theorem dvfEnvW 0 1 (by norm_num) (by norm_num) hy
  exact ⟨hy, h.1, h.2⟩

/-- Claim C3: when every adapter yields nothing, getDVFTransactions returns
the empty list (after invoking all three positions, never raising), and
calculateStats applied to that empty sequence returns empty per-category
price stats, empty yearly stats, and the all-zero six-bucket surface
histogram. -/
theorem claim_C3_theorem (env : DvfEnv) (getYear : String → ℤ)
    (commune : Commune) (h : ∀ i, i < 3 → adapterYield env i = []) :
    (getDVFTransactions env).1 = []
    ∧ (getDVFTransactions env).2 = [0, 1, 2]
    ∧ (calculateStats getYear (getDVFTransactions env).1 commune).priceStats
        = []
    ∧ (calculateStats getYear (getDVFTransactions env).1 commune).yearlyStats
        = []
    ∧ (calculateStats getYear (getDVFTransactions env).1 commune).housingDist
        = [ { label := "Moins de 30m²", count := 0, percent := 0 },
            { label := "30 à 60m²", count := 0, percent := 0 },
            { label := "60 à 80m²", count := 0, percent := 0 },
            { label := "80 à 100m²", count := 0, percent := 0 },
            { label := "100 à 120m²", count := 0, percent := 0 },
            { label := "Plus de 120m²", count := 0, percent := 0 } ] := by
  have h0 := h 0 (by norm_num)
  have h1 := h 1 (by norm_num)
  have h2 := h 2 (by norm_num)
  have hres : getDVFTransactions env = ([], [0, 1, 2]) := by
    rw [getDVF_unfold, h0, h1, h2]
    simp
  rw [hres]
  refine ⟨rfl, rfl, rfl, rfl, ?_⟩
  have hpct : round (((0 : ℕ) : ℚ) / ((1 : ℕ) : ℚ) * 100) = 0 := by
    norm_num
  simp only [calculateStats, List.filter_nil, calculateHousingDistribution,
    List.foldl_nil, List.length_nil, if_pos rfl]
  norm_num

/-- Each forEach step increments exactly one bucket. -/
theorem surfacesStep_sum (acc : SurfCounts) (t : Transaction) :
    sumCounts (surfacesStep acc t) = sumCounts acc + 1 := by
  obtain ⟨a, b, c, d, e, f⟩ := acc
  unfold surfacesStep sumCounts
  split_ifs <;> simp <;> omega

/-- The six bucket counters after the fold total the list length. -/
theorem foldl_surfaces_sum (l : List Transaction) :
    ∀ acc, sumCounts (l.foldl surfacesStep acc) = sumCounts acc + l.length := by
  induction l with
  | nil => intro acc; simp
  | cons t ts ih =>
    intro acc
    simp only [List.foldl_cons, List.length_cons]
    rw [ih, surfacesStep_sum]
    omega

/-- Claim C4 (amended): the histogram always has the six fixed buckets, each
with percent = round(count/total*100) and total defaulting to 1 on empty
input; the six counts always total the number of transactions; on the empty
list every count and percent is 0; and on a nonempty list the six bucket
percentages sum to 100 with an error of at most 3 (not at most 1 as claimed:
six independent roundings can each contribute up to one half). -/
theorem claim_C4_theorem (l : List Transaction) :
    ((calculateHousingDistribution l).map (fun b => b.label)) =
      ["Moins de 30m²", "30 à 60m²", "60 à 80m²", "80 à 100m²",
        "100 à 120m²", "Plus de 120m²"]
    ∧ (∀ b ∈ calculateHousingDistribution l,
        b.percent = round ((b.count : ℚ) /
          (((if l.length = 0 then 1 else l.length : ℕ)) : ℚ) * 100))
    ∧ ((calculateHousingDistribution l).map (fun b => b.count)).sum = l.length
    ∧ (l = [] → ∀ b ∈ calculateHousingDistribution l,
        b.count = 0 ∧ b.percent = 0)
    ∧ (l ≠ [] →
        |((calculateHousingDistribution l).map (fun b => b.percent)).sum - 100|
          ≤ 3) := by
  refine ⟨by simp [calculateHousingDistribution], ?_, ?_, ?_, ?_⟩
  · intro b hb
    simp only [calculateHousingDistribution, List.mem_cons,
      List.not_mem_nil, or_false] at hb
    rcases hb with h | h | h | h | h | h <;> subst h <;> rfl
  · have h := foldl_surfaces_sum l {}
    simp only [sumCounts] at h
    simp only [calculateHousingDistribution, List.map_cons, List.map_nil,
      List.sum_cons, List.sum_nil]
    omega
  · intro hl b hb
    subst hl
    simp only [calculateHousingDistribution, List.foldl_nil, List.length_nil,
      List.mem_cons, List.not_mem_nil, or_false] at hb
    have hz : round (((0 : ℕ) : ℚ) / ((1 : ℕ) : ℚ) * 100) = 0 := by norm_num
    rcases hb with h | h | h | h | h | h <;> subst h <;>
      exact ⟨rfl, hz⟩
  · intro hl
    have hn : l.length ≠ 0 := by
      simpa [List.length_eq_zero] using hl
    have hq : ((l.length : ℕ) : ℚ) ≠ 0 := by exact_mod_cast hn
    have hsum := foldl_surfaces_sum l {}
    simp only [sumCounts] at hsum
    set s := l.foldl surfacesStep {} with hs
    have hmap : ((calculateHousingDistribution l).map (fun b => b.percent)).sum
        = round ((s.c0 : ℚ) / (l.length : ℚ) * 100)
          + round ((s.c1 : ℚ) / (l.length : ℚ) * 100)
          + round ((s.c2 : ℚ) / (l.length : ℚ) * 100)
          + round ((s.c3 : ℚ) / (l.length : ℚ) * 100)
          + round ((s.c4 : ℚ) / (l.length : ℚ) * 100)
          + round ((s.c5 : ℚ) / (l.length : ℚ) * 100) := by
      simp only [calculateHousingDistribution, ← hs, if_neg hn,
        List.map_cons, List.map_nil, List.sum_cons, List.sum_nil, add_zero]
      ring
    have hsum2 : s.c0 + s.c1 + s.c2 + s.c3 + s.c4 + s.c5 = l.length := by
      omega
    have hc : ((s.c0 : ℚ) + s.c1 + s.c2 + s.c3 + s.c4 + s.c5)
        = (l.length : ℚ) := by exact_mod_cast hsum2
    have hxsum : (s.c0 : ℚ) / (l.length : ℚ) * 100
        + (s.c1 : ℚ) / (l.length : ℚ) * 100
        + (s.c2 : ℚ) / (l.length : ℚ) * 100
        + (s.c3 : ℚ) / (l.length : ℚ) * 100
        + (s.c4 : ℚ) / (l.length : ℚ) * 100
        + (s.c5 : ℚ) / (l.length : ℚ) * 100 = 100 := by
      have harr : (s.c0 : ℚ) / (l.length : ℚ) * 100
          + (s.c1 : ℚ) / (l.length : ℚ) * 100
          + (s.c2 : ℚ) / (l.length : ℚ) * 100
          + (s.c3 : ℚ) / (l.length : ℚ) * 100
          + (s.c4 : ℚ) / (l.length : ℚ) * 100
          + (s.c5 : ℚ) / (l.length : ℚ) * 100
          = ((s.c0 : ℚ) + s.c1 + s.c2 + s.c3 + s.c4 + s.c5)
            / (l.length : ℚ) * 100 := by ring
      rw [harr, hc, div_self hq, one_mul]
    have e0 := abs_le.mp (abs_sub_round ((s.c0 : ℚ) / (l.length : ℚ) * 100))
    have e1 := abs_le.mp (abs_sub_round ((s.c1 : ℚ) / (l.length : ℚ) * 100))
    have e2 := abs_le.mp (abs_sub_round ((s.c2 : ℚ) / (l.length : ℚ) * 100))
    have e3 := abs_le.mp (abs_sub_round ((s.c3 : ℚ) / (l.length : ℚ) * 100))
    have e4 := abs_le.mp (abs_sub_round ((s.c4 : ℚ) / (l.length : ℚ) * 100))
    have e5 := abs_le.mp (abs_sub_round ((s.c5 : ℚ) / (l.length : ℚ) * 100))
    rw [hmap, abs_le]
    constructor
    · have hql : (-3 : ℚ) ≤
          ((round ((s.c0 : ℚ) / (l.length : ℚ) * 100)
            + round ((s.c1 : ℚ) / (l.length : ℚ) * 100)
            + round ((s.c2 : ℚ) / (l.length : ℚ) * 100)
            + round ((s.c3 : ℚ) / (l.length : ℚ) * 100)
            + round ((s.c4 : ℚ) / (l.length : ℚ) * 100)
            + round ((s.c5 : ℚ) / (l.length : ℚ) * 100) : ℤ) : ℚ) - 100 := by
        push_cast
        linarith [e0.1, e0.2, e1.1, e1.2, e2.1, e2.2, e3.1, e3.2,
          e4.1, e4.2, e5.1, e5.2, hxsum]
      exact_mod_cast hql
    · have hqr : ((round ((s.c0 : ℚ) / (l.length : ℚ) * 100)
            + round ((s.c1 : ℚ) / (l.length : ℚ) * 100)
            + round ((s.c2 : ℚ) / (l.length : ℚ) * 100)
            + round ((s.c3 : ℚ) / (l.length : ℚ) * 100)
            + round ((s.c4 : ℚ) / (l.length : ℚ) * 100)
            + round ((s.c5 : ℚ) / (l.length : ℚ) * 100) : ℤ) : ℚ) - 100
          ≤ 3 := by
        push_cast
        linarith [e0.1, e0.2, e1.1, e1.2, e2.1, e2.2, e3.1, e3.2,
          e4.1, e4.2, e5.1, e5.2, hxsum]
      exact_mod_cast hqr

/-- Claim C4 is false as stated: for six valid transactions, one per bucket,
every bucket's percent is round(100/6) = 17, so the percentages sum to 102,
outside 100 ± 1. -/
theorem claim_C4_counterexample :
    histCexList.all isValid = true
    ∧ histCexList ≠ []
    ∧ ((calculateHousingDistribution histCexList).map
        (fun b => b.percent)).sum = 102
    ∧ ¬ (|((calculateHousingDistribution histCexList).map
        (fun b => b.percent)).sum - 100| ≤ 1) := by
  have hc : histCexList.foldl surfacesStep {} =
      { c0 := 1, c1 := 1, c2 := 1, c3 := 1, c4 := 1, c5 := 1 } := by decide
  have h17 : round ((50 : ℚ) / 3) = 17 := by
    rw [round_eq, show (50 : ℚ) / 3 + 1 / 2 = 103 / 6 by norm_num]
    refine Int.floor_eq_iff.mpr ⟨by norm_num, by norm_num⟩
  have hsum : ((calculateHousingDistribution histCexList).map
      (fun b => b.percent)).sum = 102 := by
    simp only [calculateHousingDistribution, hc,
      show histCexList.length = 6 by rfl, List.map_cons, List.map_nil,
      List.sum_cons, List.sum_nil]
    norm_num [h17]
  refine ⟨by decide, by decide, hsum, ?_⟩
  rw [hsum]
  decide

/-- Witness for claim C4's theorem on the six-transaction list. -/
theorem claim_C4_witness :
    histCexList ≠ []
    ∧ |((calculateHousingDistribution histCexList).map
        (fun b => b.percent)).sum - 100| ≤ 3 :=
  ⟨by decide, (claim_C4_theorem histCexList).2.2.2.2 (by decide)⟩

/-- Evaluation rule for `round` from the floor characterisation. -/
theorem round_val (q : ℚ) (z : ℤ) (h1 : (z : ℚ) ≤ q + 1 / 2)
    (h2 : q + 1 / 2 < (z : ℚ) + 1) : round q = z := by
  rw [round_eq]
  exact Int.floor_eq_iff.mpr ⟨h1, h2⟩

/-- Claim C5 (amended): median sorts ascending and returns the middle
element of the sorted list for odd length, and for even length the
`Math.round`-rounded (half-up) mean of the two middle elements — not the
exact mean; the two spec examples hold. -/
theorem claim_C5_theorem (l : List ℤ) (_h : l ≠ []) :
    median [2000, 3000, 4000, 5000] = 3500
    ∧ median [2000, 3000, 5000] = 3000
    ∧ ∃ s : List ℤ, List.Perm s l ∧ List.Sorted (fun a b => a ≤ b) s
      ∧ (l.length % 2 = 1 → median l = s.getD (l.length / 2) 0)
      ∧ (l.length % 2 = 0 →
          median l = round (((s.getD (l.length / 2 - 1) 0
            + s.getD (l.length / 2) 0 : ℤ) : ℚ) / 2)) := by
  refine ⟨?_, by decide, ?_⟩
  · simp only [median]
    rw [show List.insertionSort (fun a b => a ≤ b)
          ([2000, 3000, 4000, 5000] : List ℤ)
        = [2000, 3000, 4000, 5000] by decide]
    norm_num [List.getD]
  · refine ⟨List.insertionSort (fun a b => a ≤ b) l,
      List.perm_insertionSort _ l, List.sorted_insertionSort _ l, ?_, ?_⟩
    · intro hodd
      simp only [median]
      rw [(List.perm_insertionSort (fun a b => a ≤ b) l).length_eq,
        if_pos hodd]
    · intro heven
      simp only [median]
      rw [(List.perm_insertionSort (fun a b => a ≤ b) l).length_eq,
        if_neg (by omega : ¬ l.length % 2 = 1)]

/-- Claim C5 is false as stated for even-length lists: median [1, 2] is 2,
the rounded mean, not the exact mean 3/2. -/
theorem claim_C5_counterexample :
    median [1, 2] = 2 ∧ ((median [1, 2] : ℤ) : ℚ) ≠ ((1 : ℚ) + 2) / 2 := by
  have hm : median [1, 2] = 2 := by
    simp only [median]
    rw [show List.insertionSort (fun a b => a ≤ b) ([1, 2] : List ℤ)
        = [1, 2] by decide]
    norm_num [List.getD]
    exact round_val _ 2 (by norm_num) (by norm_num)
  refine ⟨hm, ?_⟩
  rw [hm]
  norm_num

/-- Witness for claim C5's theorem on the odd spec example. -/
theorem claim_C5_witness :
    ([2000, 3000, 5000] : List ℤ) ≠ []
    ∧ (median [2000, 3000, 4000, 5000] = 3500
      ∧ median [2000, 3000, 5000] = 3000
      ∧ ∃ s : List ℤ, List.Perm s [2000, 3000, 5000]
        ∧ List.Sorted (fun a b => a ≤ b) s
        ∧ (([2000, 3000, 5000] : List ℤ).length % 2 = 1 →
            median [2000, 3000, 5000] =
              s.getD (([2000, 3000, 5000] : List ℤ).length / 2) 0)
        ∧ (([2000, 3000, 5000] : List ℤ).length % 2 = 0 →
            median [2000, 3000, 5000] =
              round (((s.getD (([2000, 3000, 5000] : List ℤ).length / 2 - 1) 0
                + s.getD (([2000, 3000, 5000] : List ℤ).length / 2) 0 : ℤ) : ℚ)
                / 2))) :=
  ⟨by decide, claim_C5_theorem [2000, 3000, 5000] (by decide)⟩

/-- Membership in the key sequence of an insertion-built JS object is
membership in the inserted list. -/
theorem mem_objKeys_iff {α : Type} [DecidableEq α] (l : List α) (a : α) :
    a ∈ objKeys l ↔ a ∈ l := by
  have key : ∀ (l ks : List α) (a : α),
      (a ∈ l.foldl (fun ks k => if k ∈ ks then ks else ks ++ [k]) ks) ↔
        a ∈ ks ∨ a ∈ l := by
    intro l
    induction l with
    | nil => intro ks a; simp
    | cons x xs ih =>
      intro ks a
      simp only [List.foldl_cons]
      by_cases hx : x ∈ ks
      · rw [if_pos hx, ih]
        constructor
        · rintro (h | h)
          · exact Or.inl h
          · exact Or.inr (List.mem_cons_of_mem _ h)
        · rintro (h | h)
          · exact Or.inl h
          · rcases List.mem_cons.mp h with rfl | h2
            · exact Or.inl hx
            · exact Or.inr h2
      · rw [if_neg hx, ih]
        simp only [List.mem_append, List.mem_singleton, List.mem_cons]
        tauto
  have h := key l [] a
  simpa [objKeys] using h

/-- Characterisation of membership in the per-category stats list. -/
theorem mem_calcPriceStats {valid : List Transaction} {ty : String}
    {st : PriceStat} :
    (ty, st) ∈ calcPriceStats valid ↔
      ty ∈ objKeys (valid.map (fun t => t.type)) ∧
      ∃ p ps,
        positivePrices (valid.filter (fun t => t.type == ty)) = p :: ps ∧
        st = mkPriceStat (valid.filter (fun t => t.type == ty)).length p ps := by
  unfold calcPriceStats
  rw [List.mem_filterMap]
  constructor
  · rintro ⟨a, ha, hf⟩
    simp only at hf
    rcases hp : positivePrices (valid.filter (fun t => t.type == a)) with
      _ | ⟨p, ps⟩
    · rw [hp] at hf
      simp at hf
    · rw [hp] at hf
      simp only [Option.some.injEq, Prod.mk.injEq] at hf
      obtain ⟨rfl, hst⟩ := hf
      exact ⟨ha, p, ps, hp, hst.symm⟩
  · rintro ⟨hk, p, ps, hp, hst⟩
    refine ⟨ty, hk, ?_⟩
    simp only [hp]
    rw [hst]

/-- A category's positive price list is nonempty iff some transaction of the
group has a positive (non-NaN) pricePerSqm. -/
theorem positivePrices_ne_nil_iff (trans : List Transaction) :
    positivePrices trans ≠ [] ↔
      ∃ t ∈ trans, ∃ v, t.prixM2 = some v ∧ 0 < v := by
  unfold positivePrices
  rw [Ne, List.filterMap_eq_nil_iff]
  push_neg
  constructor
  · rintro ⟨a, ha, hf⟩
    obtain ⟨t, ht, rfl⟩ := List.mem_map.mp ha
    rcases hm : t.prixM2 with _ | v
    · rw [hm] at hf
      simp at hf
    · rw [hm] at hf
      by_cases hv : 0 < v
      · exact ⟨t, ht, v, hm, hv⟩
      · simp [hv] at hf
  · rintro ⟨t, ht, v, hm, hv⟩
    refine ⟨t.prixM2, List.mem_map.mpr ⟨t, ht, rfl⟩, ?_⟩
    rw [hm]
    simp [hv]

/-- Claim C6 (amended): a category entry is present in priceStats iff the
category has at least one valid transaction with a positive pricePerSqm
value (a valid transaction whose derived value rounds to 0 does not create
an entry); when present, its count is the number of valid transactions of
the category, and its min/max/avg/median are computed over the positive
pricePerSqm values of the category's valid transactions. -/
theorem claim_C6_theorem (getYear : String → ℤ) (l : List Transaction)
    (commune : Commune) (ty : String) :
    ((∃ st, (ty, st) ∈ (calculateStats getYear l commune).priceStats) ↔
      ∃ t ∈ l, isValid t = true ∧ t.type = ty ∧
        ∃ v, t.prixM2 = some v ∧ 0 < v)
    ∧ (∀ st, (ty, st) ∈ (calculateStats getYear l commune).priceStats →
        st.count = ((l.filter isValid).filter (fun t => t.type == ty)).length
        ∧ ∃ p ps,
            positivePrices ((l.filter isValid).filter (fun t => t.type == ty))
              = p :: ps
            ∧ st = mkPriceStat st.count p ps) := by
  have hps : (calculateStats getYear l commune).priceStats
      = calcPriceStats (l.filter isValid) := rfl
  constructor
  · rw [hps]
    constructor
    · rintro ⟨st, hmem⟩
      obtain ⟨-, p, ps, hp, -⟩ := mem_calcPriceStats.mp hmem
      have hne : positivePrices
          ((l.filter isValid).filter (fun t => t.type == ty)) ≠ [] := by
        rw [hp]; simp
      obtain ⟨t, ht, v, hm, hv⟩ := (positivePrices_ne_nil_iff _).mp hne
      have ht2 := List.mem_filter.mp ht
      have ht3 := List.mem_filter.mp ht2.1
      exact ⟨t, ht3.1, ht3.2, by simpa using ht2.2, v, hm, hv⟩
    · rintro ⟨t, ht, hval, hty, v, hm, hv⟩
      have htv : t ∈ l.filter isValid := List.mem_filter.mpr ⟨ht, hval⟩
      have htf : t ∈ (l.filter isValid).filter (fun t => t.type == ty) :=
        List.mem_filter.mpr ⟨htv, by simp [hty]⟩
      have hne : positivePrices
          ((l.filter isValid).filter (fun t => t.type == ty)) ≠ [] :=
        (positivePrices_ne_nil_iff _).mpr ⟨t, htf, v, hm, hv⟩
      rcases hp : positivePrices
          ((l.filter isValid).filter (fun t => t.type == ty)) with _ | ⟨p, ps⟩
      · exact absurd hp hne
      · refine ⟨mkPriceStat
          ((l.filter isValid).filter (fun t => t.type == ty)).length p ps, ?_⟩
        refine mem_calcPriceStats.mpr ⟨?_, p, ps, hp, rfl⟩
        rw [mem_objKeys_iff]
        exact List.mem_map.mpr ⟨t, htv, hty⟩
  · intro st hmem
    rw [hps] at hmem
    obtain ⟨-, p, ps, hp, hst⟩ := mem_calcPriceStats.mp hmem
    have hcount : st.count
        = ((l.filter isValid).filter (fun t => t.type == ty)).length := by
      rw [hst]; rfl
    refine ⟨hcount, p, ps, hp, ?_⟩
    rw [hcount]
    exact hst

/-- Claim C6 is false as stated: this category has one valid transaction,
yet priceStats has no entry for it, because its only pricePerSqm value is 0
and the code keeps a category only when it has a positive price value. -/
theorem claim_C6_counterexample :
    isValid txValidZero = true
    ∧ txValidZero.type = "Maison"
    ∧ (calculateStats (fun _ => 2022) [txValidZero] {}).priceStats = [] := by
  refine ⟨by decide, rfl, ?_⟩
  decide

/-- Witness for claim C6's theorem: the category of one valid positive-price
transaction is present, with count 1. -/
theorem claim_C6_witness :
    ∃ st, ("Appartement", st) ∈
        (calculateStats (fun _ => 2022) [txGood] {}).priceStats
      ∧ st.count = 1 := by
  obtain ⟨st, hmem⟩ :=
    (claim_C6_theorem (fun _ => 2022) [txGood] {} "Appartement").1.mpr
      ⟨txGood, List.mem_singleton.mpr rfl, by decide, rfl, 10000, rfl,
        by decide⟩
  have hc :=
    ((claim_C6_theorem (fun _ => 2022) [txGood] {} "Appartement").2 st hmem).1
  refine ⟨st, hmem, ?_⟩
  rw [hc]
  decide

/-- The fold modelling `Math.min(...prices)` bounds every element below. -/
theorem foldl_min_le (p : ℤ) (ps : List ℤ) :
    ∀ x ∈ p :: ps, ps.foldl Min.min p ≤ x := by
  induction ps generalizing p with
  | nil =>
    intro x hx
    rcases List.mem_singleton.mp hx with rfl
    simp
  | cons q qs ih =>
    intro x hx
    simp only [List.foldl_cons]
    rcases List.mem_cons.mp hx with rfl | hx2
    · have h1 := ih (Min.min x q) (Min.min x q) (List.mem_cons_self _ _)
      exact le_trans h1 (min_le_left _ _)
    · rcases List.mem_cons.mp hx2 with rfl | hx3
      · have h1 := ih (Min.min p x) (Min.min p x) (List.mem_cons_self _ _)
        exact le_trans h1 (min_le_right _ _)
      · exact ih (Min.min p q) x (List.mem_cons_of_mem _ hx3)

/-- The fold modelling `Math.max(...prices)` bounds every element above. -/
theorem le_foldl_max (p : ℤ) (ps : List ℤ) :
    ∀ x ∈ p :: ps, x ≤ ps.foldl Max.max p := by
  induction ps generalizing p with
  | nil =>
    intro x hx
    rcases List.mem_singleton.mp hx with rfl
    simp
  | cons q qs ih =>
    intro x hx
    simp only [List.foldl_cons]
    rcases List.mem_cons.mp hx with rfl | hx2
    · have h1 := ih (Max.max x q) (Max.max x q) (List.mem_cons_self _ _)
      exact le_trans (le_max_left _ _) h1
    · rcases List.mem_cons.mp hx2 with rfl | hx3
      · have h1 := ih (Max.max p x) (Max.max p x) (List.mem_cons_self _ _)
        exact le_trans (le_max_right _ _) h1
      · exact ih (Max.max p q) x (List.mem_cons_of_mem _ hx3)

/-- A lower bound on every element bounds the sum below. -/
theorem mul_length_le_sum (l : List ℤ) (m : ℤ) (h : ∀ x ∈ l, m ≤ x) :
    m * (l.length : ℤ) ≤ l.sum := by
  induction l with
  | nil => simp
  | cons x xs ih =>
    have hx := h x (List.mem_cons_self _ _)
    have ih2 := ih (fun y hy => h y (List.mem_cons_of_mem _ hy))
    simp only [List.length_cons, List.sum_cons]
    push_cast
    linarith

/-- An upper bound on every element bounds the sum above. -/
theorem sum_le_mul_length (l : List ℤ) (M : ℤ) (h : ∀ x ∈ l, x ≤ M) :
    l.sum ≤ M * (l.length : ℤ) := by
  induction l with
  | nil => simp
  | cons x xs ih =>
    have hx := h x (List.mem_cons_self _ _)
    have ih2 := ih (fun y hy => h y (List.mem_cons_of_mem _ hy))
    simp only [List.length_cons, List.sum_cons]
    push_cast
    linarith

/-- `round` is monotone on ℚ. -/
theorem round_mono_q {p q : ℚ} (h : p ≤ q) : round p ≤ round q := by
  rw [round_eq, round_eq]
  exact Int.floor_le_floor (by linarith)

/-- A rational between two integers rounds to an integer between them. -/
theorem round_between {a b : ℤ} {q : ℚ} (h1 : (a : ℚ) ≤ q)
    (h2 : q ≤ (b : ℚ)) : a ≤ round q ∧ round q ≤ b := by
  constructor
  · have h := round_mono_q h1
    rwa [round_intCast] at h
  · have h := round_mono_q h2
    rwa [round_intCast] at h

/-- An in-bounds `getD` is a member of the list. -/
theorem getD_mem_of_lt (l : List ℤ) (n : ℕ) (h : n < l.length) :
    l.getD n 0 ∈ l := by
  rw [List.getD_eq_getElem?_getD, List.getElem?_eq_getElem h]
  simp only [Option.getD_some]
  exact List.getElem_mem h

/-- The median of a nonempty integer list lies between the fold-min and the
fold-max. -/
theorem median_bounds (p : ℤ) (ps : List ℤ) :
    ps.foldl Min.min p ≤ median (p :: ps)
    ∧ median (p :: ps) ≤ ps.foldl Max.max p := by
  have hperm := List.perm_insertionSort (fun a b => (a : ℤ) ≤ b) (p :: ps)
  have hlen : (List.insertionSort (fun a b => a ≤ b) (p :: ps)).length
      = (p :: ps).length := hperm.length_eq
  have hpos : 0 < (List.insertionSort (fun a b => a ≤ b) (p :: ps)).length := by
    rw [hlen]
    simp
  have hb : ∀ x ∈ List.insertionSort (fun a b => a ≤ b) (p :: ps),
      ps.foldl Min.min p ≤ x ∧ x ≤ ps.foldl Max.max p := by
    intro x hx
    have hx2 : x ∈ p :: ps := hperm.mem_iff.mp hx
    exact ⟨foldl_min_le p ps x hx2, le_foldl_max p ps x hx2⟩
  simp only [median]
  set s := List.insertionSort (fun a b => a ≤ b) (p :: ps) with hs
  by_cases hpar : s.length % 2 = 1
  · rw [if_pos hpar]
    have hmid : s.length / 2 < s.length := Nat.div_lt_self hpos (by norm_num)
    exact hb _ (getD_mem_of_lt s _ hmid)
  · rw [if_neg hpar]
    have hmid : s.length / 2 < s.length := Nat.div_lt_self hpos (by norm_num)
    have hmid1 : s.length / 2 - 1 < s.length := by omega
    have ha := hb _ (getD_mem_of_lt s _ hmid1)
    have hbb := hb _ (getD_mem_of_lt s _ hmid)
    have ha1 : ((ps.foldl Min.min p : ℤ) : ℚ)
        ≤ ((s.getD (s.length / 2 - 1) 0 : ℤ) : ℚ) := by exact_mod_cast ha.1
    have ha2 : ((s.getD (s.length / 2 - 1) 0 : ℤ) : ℚ)
        ≤ ((ps.foldl Max.max p : ℤ) : ℚ) := by exact_mod_cast ha.2
    have hb1 : ((ps.foldl Min.min p : ℤ) : ℚ)
        ≤ ((s.getD (s.length / 2) 0 : ℤ) : ℚ) := by exact_mod_cast hbb.1
    have hb2 : ((s.getD (s.length / 2) 0 : ℤ) : ℚ)
        ≤ ((ps.foldl Max.max p : ℤ) : ℚ) := by exact_mod_cast hbb.2
    refine round_between (a := ps.foldl Min.min p) (b := ps.foldl Max.max p)
      ?_ ?_
    · push_cast
      push_cast at ha1 hb1
      linarith
    · push_cast
      push_cast at ha2 hb2
      linarith

/-- The rounded average of a nonempty integer list lies between the fold-min
and the fold-max. -/
theorem avg_bounds (p : ℤ) (ps : List ℤ) :
    ps.foldl Min.min p
      ≤ round (((p :: ps).sum : ℚ) / ((p :: ps).length : ℚ))
    ∧ round (((p :: ps).sum : ℚ) / ((p :: ps).length : ℚ))
      ≤ ps.foldl Max.max p := by
  have hlow := mul_length_le_sum (p :: ps) (ps.foldl Min.min p)
    (foldl_min_le p ps)
  have hhigh := sum_le_mul_length (p :: ps) (ps.foldl Max.max p)
    (le_foldl_max p ps)
  have hlpos : (0 : ℚ) < ((p :: ps).length : ℚ) := by
    have h : 0 < (p :: ps).length := by simp
    exact_mod_cast h
  have h1 : ((ps.foldl Min.min p : ℤ) : ℚ)
      ≤ ((p :: ps).sum : ℚ) / ((p :: ps).length : ℚ) := by
    rw [le_div_iff₀ hlpos]
    exact_mod_cast hlow
  have h2 : ((p :: ps).sum : ℚ) / ((p :: ps).length : ℚ)
      ≤ ((ps.foldl Max.max p : ℤ) : ℚ) := by
    rw [div_le_iff₀ hlpos]
    exact_mod_cast hhigh
  exact round_between h1 h2

/-- Claim C7: every CategoryPriceStats entry the engine produces satisfies
min ≤ median ≤ max and min ≤ avg ≤ max. -/
theorem claim_C7_theorem (getYear : String → ℤ) (l : List Transaction)
    (commune : Commune) (ty : String) (st : PriceStat)
    (h : (ty, st) ∈ (calculateStats getYear l commune).priceStats) :
    st.min ≤ st.median ∧ st.median ≤ st.max
    ∧ st.min ≤ st.avg ∧ st.avg ≤ st.max := by
  have hps : (calculateStats getYear l commune).priceStats
      = calcPriceStats (l.filter isValid) := rfl
  rw [hps] at h
  obtain ⟨-, p, ps, -, hst⟩ := mem_calcPriceStats.mp h
  subst hst
  simp only [mkPriceStat]
  exact ⟨(median_bounds p ps).1, (median_bounds p ps).2,
    (avg_bounds p ps).1, (avg_bounds p ps).2⟩

/-- Witness for claim C7's theorem at a concrete stats entry. -/
theorem claim_C7_witness :
    ("Appartement", statW7) ∈
      (calculateStats (fun _ => 2022) [txGood] {}).priceStats
    ∧ (statW7.min ≤ statW7.median ∧ statW7.median ≤ statW7.max
      ∧ statW7.min ≤ statW7.avg ∧ statW7.avg ≤ statW7.max) := by
  have hmem : ("Appartement", statW7) ∈
      (calculateStats (fun _ => 2022) [txGood] ({} : Commune)).priceStats := by
    have h : (calculateStats (fun _ => 2022) [txGood] ({} : Commune)).priceStats
        = [("Appartement", statW7)] := rfl
    rw [h]
    exact List.mem_singleton.mpr rfl
  exact ⟨hmem, claim_C7_theorem _ _ _ _ _ hmem⟩

/-- Every character the run-replacement emits is url-safe or a hyphen. -/
theorem dashRuns_chars (l : List Char) :
    ∀ c ∈ dashRuns l, urlSafe c = true ∨ c = '-' := by
  induction l using dashRuns.induct with
  | case1 =>
    intro c hc
    simp [dashRuns] at hc
  | case2 c cs hsafe ih =>
    intro d hd
    rw [dashRuns, if_pos hsafe] at hd
    rcases List.mem_cons.mp hd with rfl | hd2
    · exact Or.inl hsafe
    · exact ih d hd2
  | case3 c cs hsafe ih =>
    intro d hd
    rw [dashRuns, if_neg hsafe] at hd
    rcases List.mem_cons.mp hd with rfl | hd2
    · exact Or.inr rfl
    · exact ih d hd2

/-- The head surviving a `dropWhile` fails the dropped predicate. -/
theorem head_dropWhile_not (p : Char → Bool) (l : List Char) (c : Char)
    (h : (l.dropWhile p).head? = some c) : p c = false := by
  induction l with
  | nil => simp at h
  | cons x xs ih =>
    rw [List.dropWhile_cons] at h
    by_cases hx : p x = true
    · rw [if_pos hx] at h
      exact ih h
    · rw [if_neg hx] at h
      simp only [List.head?_cons, Option.some.injEq] at h
      subst h
      exact Bool.not_eq_true _ ▸ hx

/-- In the run-replacement output a hyphen is never followed by another
hyphen or other unsafe character. -/
theorem dashRuns_chain (l : List Char) :
    List.Chain' (fun a b => a = '-' → urlSafe b = true) (dashRuns l) := by
  induction l using dashRuns.induct with
  | case1 => simp [dashRuns]
  | case2 c cs hsafe ih =>
    rw [dashRuns, if_pos hsafe]
    refine List.chain'_cons'.mpr ⟨?_, ih⟩
    intro b _ hc
    rw [hc] at hsafe
    simp [urlSafe] at hsafe
  | case3 c cs hsafe ih =>
    rw [dashRuns, if_neg hsafe]
    rcases hcs : cs.dropWhile (fun d => !urlSafe d) with _ | ⟨d, ds⟩
    · simp [dashRuns]
    · have hd_safe : urlSafe d = true := by
        have h := head_dropWhile_not (fun d => !urlSafe d) cs d
          (by rw [hcs]; rfl)
        simpa using h
      rw [hcs] at ih
      have he : dashRuns (d :: ds) = d :: dashRuns ds := by
        rw [dashRuns, if_pos hd_safe]
      rw [he] at ih ⊢
      refine List.chain'_cons'.mpr ⟨?_, ih⟩
      intro b hb _
      simp only [List.head?_cons, Option.mem_def, Option.some.injEq] at hb
      subst hb
      exact hd_safe

/-- On a string of url-safe characters and isolated hyphens, the
run-replacement is the identity. -/
theorem dashRuns_id (l : List Char)
    (hchars : ∀ c ∈ l, urlSafe c = true ∨ c = '-')
    (hchain : List.Chain' (fun a b => a = '-' → urlSafe b = true) l) :
    dashRuns l = l := by
  induction l with
  | nil => simp [dashRuns]
  | cons c cs ih =>
    rcases hchars c (List.mem_cons_self _ _) with hsafe | hdash
    · rw [dashRuns, if_pos hsafe,
        ih (fun d hd => hchars d (List.mem_cons_of_mem _ hd)) hchain.tail]
    · subst hdash
      rw [dashRuns, if_neg (by simp [urlSafe])]
      rcases cs with _ | ⟨d, ds⟩
      · simp [dashRuns]
      · have hd_safe : urlSafe d = true := (List.chain'_cons.mp hchain).1 rfl
        rw [List.dropWhile_cons, if_neg (by simp [hd_safe]),
          ih (fun x hx => hchars x (List.mem_cons_of_mem _ hx)) hchain.tail]

/-- The trim step only keeps characters of its input. -/
theorem trimDashes_subset (l : List Char) : ∀ c ∈ trimDashes l, c ∈ l := by
  intro c hc
  unfold trimDashes at hc
  rw [List.mem_reverse] at hc
  have h2 := List.dropWhile_subset _ hc
  rw [List.mem_reverse] at h2
  exact List.dropWhile_subset _ h2

/-- The trim output is a contiguous segment of its input. -/
theorem trimDashes_isInfix (l : List Char) :
    trimDashes l <:+: l := by
  have h1 : trimDashes l <+: l.dropWhile (fun c => c == '-') := by
    have h2 : (trimDashes l).reverse <:+
        (l.dropWhile (fun c => c == '-')).reverse := by
      unfold trimDashes
      rw [List.reverse_reverse]
      exact List.dropWhile_suffix _
    exact List.reverse_suffix.mp h2
  exact h1.isInfix.trans (List.dropWhile_suffix _).isInfix

/-- The trim output never starts with a hyphen. -/
theorem trimDashes_head (l : List Char) (c : Char)
    (h : (trimDashes l).head? = some c) : c ≠ '-' := by
  have h1 : trimDashes l <+: l.dropWhile (fun x => x == '-') := by
    have h2 : (trimDashes l).reverse <:+
        (l.dropWhile (fun x => x == '-')).reverse := by
      unfold trimDashes
      rw [List.reverse_reverse]
      exact List.dropWhile_suffix _
    exact List.reverse_suffix.mp h2
  obtain ⟨t, ht⟩ := h1
  have hh : (l.dropWhile (fun x => x == '-')).head? = some c := by
    rw [← ht]
    rcases htr : trimDashes l with _ | ⟨x, xs⟩
    · rw [htr] at h
      simp at h
    · rw [htr] at h
      simp only [List.head?_cons, Option.some.injEq] at h
      subst h
      rfl
  have hp := head_dropWhile_not _ _ _ hh
  intro hc
  rw [hc] at hp
  simp at hp

/-- The trim output never ends with a hyphen. -/
theorem trimDashes_last (l : List Char) (c : Char)
    (h : (trimDashes l).getLast? = some c) : c ≠ '-' := by
  unfold trimDashes at h
  rw [List.getLast?_reverse] at h
  have hp := head_dropWhile_not _ _ _ h
  intro hc
  rw [hc] at hp
  simp at hp

/-- Trimming is the identity when neither end is a hyphen. -/
theorem trimDashes_id (l : List Char)
    (h1 : ∀ c, l.head? = some c → c ≠ '-')
    (h2 : ∀ c, l.getLast? = some c → c ≠ '-') : trimDashes l = l := by
  unfold trimDashes
  have e1 : l.dropWhile (fun c => c == '-') = l := by
    rcases l with _ | ⟨c, cs⟩
    · rfl
    · rw [List.dropWhile_cons, if_neg]
      simpa using h1 c rfl
  rw [e1]
  have e2 : l.reverse.dropWhile (fun c => c == '-') = l.reverse := by
    rcases hr : l.reverse with _ | ⟨c, cs⟩
    · rfl
    · have hc : l.getLast? = some c := by
        rw [← List.head?_reverse, hr]
        rfl
      rw [List.dropWhile_cons, if_neg]
      simpa using h2 c hc
  rw [e2, List.reverse_reverse]

/-- Claim C10: the slug output uses only lowercase letters, digits and
hyphens, never starts or ends with a hyphen, and — granting that the
platform lower-casing/NFD chain `pre` is the identity on strings already
made of those characters, as the real one is — normalizeForUrl is
idempotent. -/
theorem claim_C10_theorem (pre : List Char → List Char) (s : List Char) :
    (∀ c ∈ normalizeForUrl pre s, urlSafe c = true ∨ c = '-')
    ∧ (∀ c, (normalizeForUrl pre s).head? = some c → c ≠ '-')
    ∧ (∀ c, (normalizeForUrl pre s).getLast? = some c → c ≠ '-')
    ∧ ((∀ l, (∀ c ∈ l, urlSafe c = true ∨ c = '-') → pre l = l) →
        normalizeForUrl pre (normalizeForUrl pre s) = normalizeForUrl pre s)
    := by
  have hchars : ∀ c ∈ normalizeForUrl pre s, urlSafe c = true ∨ c = '-' :=
    fun c hc => dashRuns_chars _ c (trimDashes_subset _ c hc)
  refine ⟨hchars, fun c hc => trimDashes_head _ c hc,
    fun c hc => trimDashes_last _ c hc, ?_⟩
  intro hpre
  have hchain : List.Chain' (fun a b => a = '-' → urlSafe b = true)
      (normalizeForUrl pre s) :=
    List.Chain'.infix (dashRuns_chain (pre s))
      (trimDashes_isInfix (dashRuns (pre s)))
  show trimDashes (dashRuns (pre (normalizeForUrl pre s)))
      = normalizeForUrl pre s
  rw [hpre _ hchars, dashRuns_id _ hchars hchain]
  exact trimDashes_id _ (fun c hc => trimDashes_head _ c hc)
    (fun c hc => trimDashes_last _ c hc)

/-- Witness for claim C10's theorem on a concrete string with the identity
as platform chain. -/
theorem claim_C10_witness :
    (∀ c, (normalizeForUrl id "Aix-en-Provence 2!".data).head? = some c →
      c ≠ '-')
    ∧ normalizeForUrl id (normalizeForUrl id "Aix-en-Provence 2!".data)
      = normalizeForUrl id "Aix-en-Provence 2!".data :=
  ⟨(claim_C10_theorem id "Aix-en-Provence 2!".data).2.1,
    (claim_C10_theorem id "Aix-en-Provence 2!".data).2.2.2
      (fun _ _ => rfl)⟩

/-- Witness for claim C3's theorem in the all-failed environment. -/
theorem claim_C3_witness :
    (∀ i, i < 3 → adapterYield dvfEnvNone i = [])
    ∧ (getDVFTransactions dvfEnvNone).1 = []
    ∧ (calculateStats (fun _ => 0) (getDVFTransactions dvfEnvNone).1
        ({} : Commune)).priceStats = [] := by
  have h : ∀ i, i < 3 → adapterYield dvfEnvNone i = [] := by
    intro i _
    unfold adapterYield
    cases dvfApis[i]? with
    | none => rfl
    | some api => cases api.parserTag <;> rfl
  have hthm := claim_C3_theorem dvfEnvNone (fun _ => 0) ({} : Commune) h
  exact ⟨h, hthm.1, hthm.2.2.1⟩
